import Mathlib

/-!
A verification development for `src/data/productsToMD.py`, the product
CSV → markdown converter of the mercora repository.

Modelling conventions:
* A CSV row (the `dict` produced by `csv.DictReader`) is a partial map from
  column name to raw string value, `Row := String → Option String`.
* Python exceptions (`KeyError` on `row[k]`, `ValueError` from `int(...)`)
  are modelled by `Option`: a function that can raise returns `none` there.
* `parse_price` computes `int(price_str) / 100` in Python.  The quotient is
  represented exactly by its numerator: a price value is carried as the
  integer number of minor units (cents) `c`, standing for the dollar amount
  `c / 100`.  Since `c ↦ c / 100` is injective, equality/ordering of prices
  coincides with equality/ordering of the carried integers, and the display
  format `f"{x:.2f}"` is rendered from `c` by `fmt2`.
-/

/-- The ASCII part of the whitespace set removed by Python `str.strip()`. -/
def pyWS (c : Char) : Bool :=
  c = ' ' || c = '\t' || c = '\n' || c = '\r' || c = '\x0b' || c = '\x0c'

/-- Python `s.strip()`: drop leading and trailing whitespace. -/
def pyStrip (s : String) : String :=
  ⟨((s.data.dropWhile pyWS).reverse.dropWhile pyWS).reverse⟩

/-- Decimal digit value of a character, if it is one. -/
def digit? (c : Char) : Option Nat :=
  if '0' ≤ c && c ≤ '9' then some (c.toNat - '0'.toNat) else none

/-- Digit-run parser for Python `int`: digits, where a single `_` may occur
between two digits (`"1_000"` is accepted, `"_1"`, `"1_"` and `"1__0"` are not). -/
def parseDigitsAux (acc : Nat) : List Char → Option Nat
  | [] => some acc
  | c :: rest =>
    if c = '_' then
      match rest with
      | [] => none
      | d :: rest2 =>
        match digit? d with
        | some v => parseDigitsAux (acc * 10 + v) rest2
        | none => none
    else
      match digit? c with
      | some v => parseDigitsAux (acc * 10 + v) rest
      | none => none

/-- A nonempty digit run (no leading underscore). -/
def parseDigits : List Char → Option Nat
  | [] => none
  | c :: rest =>
    match digit? c with
    | some v => parseDigitsAux v rest
    | none => none

/-- Python `int(s)` in base 10: surrounding whitespace is stripped, an optional
single sign precedes a nonempty digit run.  `none` models `ValueError`. -/
def parsePyInt (s : String) : Option Int :=
  match (pyStrip s).data with
  | '-' :: rest => (parseDigits rest).map (fun n => -(n : Int))
  | '+' :: rest => (parseDigits rest).map (fun n => (n : Int))
  | l => (parseDigits l).map (fun n => (n : Int))

/-- Rendering of `f"{x:.2f}"` for the exact value `x = c / 100`:
sign, integer dollars, `.`, two digits of cents. -/
def fmt2 (c : Int) : String :=
  (if c < 0 then "-" else "") ++ toString (c.natAbs / 100) ++ "." ++
    (if c.natAbs % 100 < 10 then "0" else "") ++ toString (c.natAbs % 100)

/-- `parse_price` (source lines 56–66): `int(price_str) / 100`.  The result is
carried exactly as its value in minor units (see the file comment);
`none` models the propagated `ValueError`. -/
def parse_price (price_str : String) : Option Int :=
  parsePyInt price_str

/-- `is_on_sale` (source lines 68–78): `sale_flag in ["1", "true", "TRUE", "yes"]`. -/
def is_on_sale (sale_flag : String) : Bool :=
  ["1", "true", "TRUE", "yes"].contains sale_flag

/-- Python `s.replace(old, new)` for a one-character `old`: every occurrence
of the character is replaced. -/
def pyReplaceChar (s : String) (old : Char) (new : String) : String :=
  ⟨s.data.flatMap (fun c => if c = old then new.data else [c])⟩

/-- Python `s.split(sep)` for a one-character separator: `""` gives `[""]`,
separators are not grouped, empty tokens are kept. -/
def splitOnChar (sep : Char) : List Char → List (List Char)
  | [] => [[]]
  | c :: rest =>
    if c = sep then [] :: splitOnChar sep rest
    else
      match splitOnChar sep rest with
      | t :: ts => (c :: t) :: ts
      | [] => [[c]]

/-- `format_comma_separated` (source lines 80–90): `value.replace(",", ", ")`. -/
def format_comma_separated (value : String) : String :=
  pyReplaceChar value ',' ", "

/-- `parse_attributes` (source lines 92–112): split on commas, strip each token,
keep tokens containing a colon, render `"- " + attr.replace(':', ': ')`,
join with newlines. -/
def parse_attributes (attributes_str : String) : String :=
  let attrs := (splitOnChar ',' attributes_str.data).map (fun l => (⟨l⟩ : String))
  String.intercalate "\n" (attrs.foldl
    (fun acc attr =>
      if ':' ∈ (pyStrip attr).data
      then acc ++ ["- " ++ pyReplaceChar (pyStrip attr) ':' ": "] else acc)
    [])

/-- A CSV row: partial map from column name to raw string value. -/
abbrev Row := String → Option String

/-- Build a row from an association list of present columns. -/
def mkRow (l : List (String × String)) : Row := fun k => l.lookup k

/-- Override one column of a row (`none` removes it). -/
def upd (row : Row) (k : String) (v : Option String) : Row :=
  fun q => if q = k then v else row q

/-- Python `row.get(k, d)`. -/
def rowGet (row : Row) (k d : String) : String := (row k).getD d

/-- `determine_pricing` (source lines 114–134).  Returns the tuple
`(formatted_price, regular_price, sale_price-or-None)`; `none` models a raised
`KeyError`/`ValueError`.  Prices are carried in minor units. -/
def determine_pricing (row : Row) : Option (String × Int × Option Int) := do
  let priceStr ← row "price"
  let regular_price ← parse_price priceStr
  let on_sale := is_on_sale (rowGet row "on_sale" "0")
  let has_sale_price := pyStrip (rowGet row "sale_price" "") != ""
  if on_sale && has_sale_price then do
    let saleStr ← row "sale_price"
    let sale_price ← parse_price saleStr
    return ("$" ++ fmt2 sale_price, regular_price, some sale_price)
  else
    return ("$" ++ fmt2 regular_price, regular_price, none)

/-- Python truthiness of the third tuple slot at source line 166
(`"true" if sale_price else "false"`): `None` and `0.0` are falsy. -/
def pyTruthy : Option Int → Bool
  | none => false
  | some c => c != 0

/-- The string rendered on the `on_sale:` metadata line (source line 166). -/
def on_sale_rendered (sale_price : Option Int) : String :=
  if pyTruthy sale_price then "true" else "false"

/-- The f-string of source lines 159–182, as a function of the interpolated
values. -/
def assemble (id name slug categories formatted_price : String)
    (regular_price : Int) (sale_price : Option Int)
    (tags use_cases notes_section short_description long_description
      attr_list : String) : String :=
  "---\nid: " ++ id ++
  "\ntitle: " ++ name ++
  "\nslug: " ++ slug ++
  "\ncategories: " ++ categories ++
  "\nprice: " ++ formatted_price ++
  "\nregular_price: $" ++ fmt2 regular_price ++
  "\non_sale: " ++ on_sale_rendered sale_price ++
  "\ntags: [" ++ tags ++
  "]\nuse_cases: [" ++ use_cases ++
  "]\n---\n\n" ++ short_description ++
  "\n\n" ++ notes_section ++
  "\n\n## Details\n\n" ++ long_description ++
  "\n\n## Attributes\n\n" ++ attr_list ++ "\n"

/-- `generate_markdown_content` (source lines 136–183); `none` models a raised
`KeyError`/`ValueError` for the record (not caught per row). -/
def generate_markdown_content (row : Row) : Option String := do
  let slug ← row "slug"
  let ai_notes := pyStrip (rowGet row "ai_notes" "")
  let notes_section :=
    if ai_notes != "" then "\n**AI NOTES:** " ++ ai_notes ++ "\n" else ""
  let pr ← determine_pricing row
  let tags := format_comma_separated (rowGet row "tags" "")
  let use_cases := format_comma_separated (rowGet row "use_cases" "")
  let attr_list := parse_attributes (rowGet row "attributes" "")
  let id ← row "id"
  let name ← row "name"
  let categories ← row "categories"
  let short_description ← row "short_description"
  let long_description ← row "long_description"
  return assemble id name slug categories pr.1 pr.2.1 pr.2.2
    tags use_cases notes_section short_description long_description attr_list

/-- "every comma is followed by exactly one space" (the wording of the claimed
output format of the list formatter). -/
def commaOneSpace : List Char → Bool
  | [] => true
  | c :: rest =>
    if c = ',' then
      match rest with
      | ' ' :: rest2 => (rest2.head? != some ' ') && commaOneSpace rest2
      | _ => false
    else commaOneSpace rest

/-- every comma is followed by at least one space. -/
def commaSpace : List Char → Bool
  | [] => true
  | c :: rest => (c != ',' || rest.head? == some ' ') && commaSpace rest

/-- Delete the one space the list formatter inserts after each comma. -/
def unformatComma : List Char → List Char
  | [] => []
  | [c] => [c]
  | c :: d :: rest =>
    if c = ',' ∧ d = ' ' then ',' :: unformatComma rest
    else c :: unformatComma (d :: rest)

/-- The list-level body of `format_comma_separated`. -/
def fcList (l : List Char) : List Char :=
  l.flatMap (fun c => if c = ',' then [',', ' '] else [c])

/-- The attribute parser as the claim describes it: replace only the FIRST
colon of a retained token.  (Stated from the claim's words, to be compared
with `parse_attributes`.) -/
def replaceFirstColon : List Char → List Char
  | [] => []
  | c :: rest => if c = ':' then ':' :: ' ' :: rest else c :: replaceFirstColon rest

/-- Claimed attribute parser: like `parse_attributes` but first-colon-only. -/
def parse_attributes_first_colon (attributes_str : String) : String :=
  let attrs := (splitOnChar ',' attributes_str.data).map (fun l => (⟨l⟩ : String))
  String.intercalate "\n" (attrs.foldl
    (fun acc attr =>
      if ':' ∈ (pyStrip attr).data
      then acc ++ ["- " ++ (⟨replaceFirstColon (pyStrip attr).data⟩ : String)] else acc)
    [])

/-- The attribute parser as the amended claim describes it: a filter/map
pipeline replacing EVERY colon.  (Stated from the amended claim's words, to be
compared with `parse_attributes`.) -/
def parse_attributes_pipeline (s : String) : String :=
  String.intercalate "\n"
    ((((splitOnChar ',' s.data).map (fun l => (⟨l⟩ : String))).map pyStrip).filterMap
      (fun t => if ':' ∈ t.data then some ("- " ++ pyReplaceChar t ':' ": ") else none))

example : parsePyInt "2999" = some 2999 := by decide
example : parsePyInt " -50 " = some (-50) := by decide
example : parsePyInt "1_000" = some 1000 := by decide
example : parsePyInt "1__0" = none := by decide
example : parsePyInt "" = none := by decide
example : parsePyInt "- 5" = none := by decide
example : fmt2 (-50) = "-0.50" := by decide
example : fmt2 2999 = "29.99" := by decide
example : fmt2 0 = "0.00" := by decide
example : format_comma_separated "a,b,c" = "a, b, c" := by decide
example : format_comma_separated "a, b" = "a,  b" := by decide
example : parse_attributes "color:red, size:large, nocolon" =
    "- color: red\n- size: large" := by decide
example : parse_attributes "a:b:c" = "- a: b: c" := by decide
example :
    determine_pricing (mkRow [("price", "2999"), ("sale_price", "1999"), ("on_sale", "1")]) =
      some ("$19.99", 2999, some 1999) := by decide
example :
    determine_pricing (mkRow [("price", "2999"), ("sale_price", ""), ("on_sale", "1")]) =
      some ("$29.99", 2999, none) := by decide

/-! ## Helper lemmas -/

lemma commaSpace_fcList (l : List Char) : commaSpace (fcList l) = true := by
  induction l with
  | nil => rfl
  | cons c rest ih =>
    by_cases hc : c = ','
    · subst hc
      show commaSpace (',' :: ' ' :: fcList rest) = true
      simp [commaSpace, ih]
    · rw [show fcList (c :: rest) = (if c = ',' then [',', ' '] else [c]) ++ fcList rest
          from rfl, if_neg hc]
      simp [commaSpace, hc, ih]

lemma unformat_fcList (l : List Char) : unformatComma (fcList l) = l := by
  induction l with
  | nil => rfl
  | cons c rest ih =>
    by_cases hc : c = ','
    · subst hc
      show unformatComma (',' :: ' ' :: fcList rest) = ',' :: rest
      rw [show unformatComma (',' :: ' ' :: fcList rest) = ',' :: unformatComma (fcList rest)
            from by simp [unformatComma], ih]
    · rw [show fcList (c :: rest) = (if c = ',' then [',', ' '] else [c]) ++ fcList rest
          from rfl, if_neg hc]
      show unformatComma (c :: fcList rest) = c :: rest
      cases hf : fcList rest with
      | nil =>
        have hrest : rest = [] := by
          have h0 := ih
          rw [hf] at h0
          exact h0.symm
        subst hrest
        rfl
      | cons d t =>
        rw [show unformatComma (c :: d :: t) = c :: unformatComma (d :: t) from by
              rw [unformatComma, if_neg (fun h => hc h.1)],
            ← hf, ih]

lemma foldl_filter_append {α β : Type} (p : α → Prop) [DecidablePred p] (f : α → β) :
    ∀ (l : List α) (acc : List β),
      l.foldl (fun acc a => if p a then acc ++ [f a] else acc) acc
        = acc ++ l.filterMap (fun a => if p a then some (f a) else none)
  | [], acc => by simp
  | a :: t, acc => by
    by_cases hp : p a <;>
      simp [hp, foldl_filter_append p f t, List.filterMap_cons]

/-! ## Claim theorems -/

/-- **C5**: `is_on_sale` returns true iff its input is exactly one of
`"1"`, `"true"`, `"TRUE"`, `"yes"`; in particular it returns false on `"0"`,
`"false"`, `"no"`, the empty string, `"Yes"`, `"No"`, and `"TRUE "`. -/
theorem is_on_sale_iff :
    (∀ s : String, is_on_sale s = true ↔ (s = "1" ∨ s = "true" ∨ s = "TRUE" ∨ s = "yes")) ∧
    is_on_sale "0" = false ∧ is_on_sale "false" = false ∧ is_on_sale "no" = false ∧
    is_on_sale "" = false ∧ is_on_sale "Yes" = false ∧ is_on_sale "No" = false ∧
    is_on_sale "TRUE " = false := by
  refine ⟨fun s => ?_, by decide, by decide, by decide, by decide, by decide, by decide,
    by decide⟩
  simp [is_on_sale]

/-- **C4** counterexample: on input `"a, b"`, which already has a space after
its comma, the formatter produces `"a,  b"`, where the comma is followed by two
spaces, refuting "every comma is followed by exactly one space (including when
the input already contains spaces after commas)". -/
theorem format_comma_separated_cex :
    format_comma_separated "a, b" = "a,  b" ∧
    commaOneSpace (format_comma_separated "a, b").data = false := by decide

/-- **C4** (amended): the formatter inserts exactly one space after every comma
without trimming, deduplicating or reordering (the input is recovered by
deleting the inserted spaces), so every comma of the output is followed by at
least one space — two when the input already had one; `"a,b,c"` maps to
`"a, b, c"` and `""` to `""`. -/
theorem format_comma_separated_amended_holds :
    (∀ s : String, commaSpace (format_comma_separated s).data = true) ∧
    (∀ s : String, unformatComma (format_comma_separated s).data = s.data) ∧
    format_comma_separated "a,b,c" = "a, b, c" ∧
    format_comma_separated "" = "" := by
  refine ⟨fun s => ?_, fun s => ?_, by decide, by decide⟩
  · exact commaSpace_fcList s.data
  · exact unformat_fcList s.data

/-- **C3** counterexample: on the multi-colon token `"a:b:c"` the code expands
EVERY colon (`"- a: b: c"`), not only the first (`"- a: b:c"`), refuting
"subsequent colons in a multi-colon token are left untouched". -/
theorem parse_attributes_cex :
    parse_attributes "a:b:c" = "- a: b: c" ∧
    parse_attributes_first_colon "a:b:c" = "- a: b:c" ∧
    parse_attributes "a:b:c" ≠ parse_attributes_first_colon "a:b:c" := by decide

/-- **C3** (amended): the attribute parser splits on commas, trims each token,
silently discards tokens without a colon, prefixes retained tokens with `"- "`,
replaces EVERY occurrence of `":"` with `": "`, and joins with newlines;
`"color:red, size:large, nocolon"` yields exactly the two lines
`"- color: red"` and `"- size: large"`. -/
theorem parse_attributes_amended_holds :
    (∀ s : String, parse_attributes s = parse_attributes_pipeline s) ∧
    parse_attributes "color:red, size:large, nocolon" =
      "- color: red\n- size: large" := by
  refine ⟨fun s => ?_, by decide⟩
  simp only [parse_attributes, parse_attributes_pipeline]
  rw [foldl_filter_append (fun attr => ':' ∈ (pyStrip attr).data)
    (fun attr => "- " ++ pyReplaceChar (pyStrip attr) ':' ": ")]
  simp only [List.filterMap_map, List.nil_append]
  rfl

/-- A row holding exactly the three pricing columns. -/
def mkPricingRow (price sale_price on_sale : String) : Row :=
  mkRow [("price", price), ("sale_price", sale_price), ("on_sale", on_sale)]

lemma determine_pricing_mk (price sp os : String) :
    determine_pricing (mkPricingRow price sp os) =
      (parsePyInt price).bind (fun p =>
        if is_on_sale os && (pyStrip sp != "") then
          (parsePyInt sp).bind (fun v => some ("$" ++ fmt2 v, p, some v))
        else some ("$" ++ fmt2 p, p, none)) := rfl

/-- **C2**: on a row with a parseable price: when the sale flag holds and the
trimmed sale_price is non-empty, the resolver returns the parsed sale price and
its `$`-prefixed two-fraction-digit rendering; otherwise it falls back to the
regular price, rendered the same way. -/
theorem determine_pricing_correct (price sp os : String) (p : Int)
    (hp : parse_price price = some p) :
    (∀ v : Int, is_on_sale os = true → pyStrip sp ≠ "" → parse_price sp = some v →
      determine_pricing (mkPricingRow price sp os) = some ("$" ++ fmt2 v, p, some v)) ∧
    (¬(is_on_sale os = true ∧ pyStrip sp ≠ "") →
      determine_pricing (mkPricingRow price sp os) = some ("$" ++ fmt2 p, p, none)) := by
  constructor
  · intro v hos hsp hv
    have hsp' : (pyStrip sp != "") = true := by simpa using hsp
    rw [determine_pricing_mk, show parsePyInt price = some p from hp, Option.some_bind,
      if_pos (by rw [hos, hsp']; rfl), show parsePyInt sp = some v from hv, Option.some_bind]
  · intro hno
    have hcond : (is_on_sale os && (pyStrip sp != "")) = false := by
      rcases not_and_or.mp hno with h1 | h2
      · simp [Bool.not_eq_true] at h1
        simp [h1]
      · rw [not_not] at h2
        simp [h2]
    rw [determine_pricing_mk, show parsePyInt price = some p from hp, Option.some_bind,
      if_neg (by rw [hcond]; exact Bool.false_ne_true)]

/-- Witness for **C2** at the spec's two concrete examples. -/
theorem determine_pricing_correct_witness :
    determine_pricing (mkPricingRow "2999" "1999" "1") = some ("$19.99", 2999, some 1999) ∧
    determine_pricing (mkPricingRow "2999" "" "1") = some ("$29.99", 2999, none) :=
  ⟨(determine_pricing_correct "2999" "1999" "1" 2999 (by decide)).1 1999 (by decide)
      (by decide) (by decide),
   (determine_pricing_correct "2999" "" "1" 2999 (by decide)).2 (by decide)⟩

/-- The property asserted by claim C1, stated from the spec's words: the
rendered on_sale flag is "true" iff the effective price (the applied sale price
when one was applied, else the regular price) differs from the regular price. -/
def discountIffPriceDiffers (row : Row) : Prop :=
  ∀ fp rp sp, determine_pricing row = some (fp, rp, sp) →
    (on_sale_rendered sp = "true" ↔ sp.getD rp ≠ rp)

/-- **C1** counterexample: for price "2999", sale_price "2999", on_sale "1",
the sale branch applies a sale price equal to the regular price, so
effectivePrice = regularPrice, yet the document's on_sale line renders
"true". -/
theorem on_sale_rendered_cex :
    ¬ discountIffPriceDiffers (mkPricingRow "2999" "2999" "1") := by
  intro h
  have h2 := h "$29.99" 2999 (some 2999) (by decide)
  simp [on_sale_rendered, pyTruthy] at h2

/-- **C1** (amended): the rendered on_sale value is "true" iff the sale branch
was taken (sale flag true and non-blank sale_price) and the parsed sale price
is nonzero; in particular it is "false" when a sale price of 0 minor units is
applied under an active flag (though effectivePrice then differs from
regularPrice) and "true" when the applied sale price equals the regular
price. -/
theorem on_sale_rendered_amended (price sp os fp : String) (rp : Int)
    (spo : Option Int)
    (h : determine_pricing (mkPricingRow price sp os) = some (fp, rp, spo)) :
    on_sale_rendered spo = "true" ↔
      (is_on_sale os = true ∧ pyStrip sp ≠ "" ∧ parse_price sp ≠ some 0) := by
  rw [determine_pricing_mk] at h
  cases hp : parsePyInt price with
  | none => rw [hp] at h; simp at h
  | some p =>
    rw [hp, Option.some_bind] at h
    by_cases hcond : (is_on_sale os && (pyStrip sp != "")) = true
    · rw [if_pos hcond] at h
      obtain ⟨hos, hsp⟩ := Bool.and_eq_true_iff.mp hcond
      have hsp' : pyStrip sp ≠ "" := by simpa using hsp
      cases hs : parsePyInt sp with
      | none => rw [hs] at h; simp at h
      | some v =>
        rw [hs, Option.some_bind] at h
        simp only [Option.some_inj, Prod.mk.injEq] at h
        obtain ⟨-, -, hspo⟩ := h
        subst hspo
        by_cases hv : v = 0
        · subst hv
          simp [on_sale_rendered, pyTruthy, parse_price, hs]
        · simp [on_sale_rendered, pyTruthy, parse_price, hs, hv, hos, hsp']
    · rw [if_neg hcond] at h
      simp only [Option.some_inj, Prod.mk.injEq] at h
      obtain ⟨-, -, hspo⟩ := h
      subst hspo
      simp only [on_sale_rendered, pyTruthy]
      constructor
      · intro hfalse
        exact absurd hfalse (by decide)
      · rintro ⟨hos, hsp', -⟩
        exact absurd (by simp [hos, hsp'] : (is_on_sale os && (pyStrip sp != "")) = true) hcond

/-- Witness for **C1** (amended) at the two edge inputs: an applied sale price
of 0 minor units, and an applied sale price equal to the regular price. -/
theorem on_sale_rendered_amended_witness :
    (on_sale_rendered (some 0) = "true" ↔
      (is_on_sale "1" = true ∧ pyStrip "0" ≠ "" ∧ parse_price "0" ≠ some 0)) ∧
    (on_sale_rendered (some 2999) = "true" ↔
      (is_on_sale "1" = true ∧ pyStrip "2999" ≠ "" ∧ parse_price "2999" ≠ some 0)) :=
  ⟨on_sale_rendered_amended "2999" "0" "1" "$0.00" 2999 (some 0) (by decide),
   on_sale_rendered_amended "2999" "2999" "1" "$29.99" 2999 (some 2999) (by decide)⟩

/-- `needle` occurs verbatim as a contiguous substring of `hay`. -/
def appearsIn (needle hay : String) : Prop :=
  ∃ pre suf : String, hay = pre ++ needle ++ suf

/-- A row with a negative price and all required fields present. -/
def R_neg : Row := mkRow [("id", "1"), ("name", "N"), ("slug", "w"), ("categories", "c"),
  ("price", "-50"), ("short_description", "s"), ("long_description", "l")]

/-- **C9**: the price parser accepts everything Python integer parsing accepts,
including negative and whitespace-padded strings, with no sign or range check;
a negative price flows through pricing resolution and appears in the document
as a negative display price `$-0.50`. -/
theorem parse_price_no_range_check :
    parse_price "-50" = some (-50) ∧
    parse_price " 2999 " = some 2999 ∧
    parse_price "+7" = some 7 ∧
    determine_pricing R_neg = some ("$-0.50", -50, none) ∧
    (∃ doc, generate_markdown_content R_neg = some doc ∧ appearsIn "price: $-0.50" doc) := by
  refine ⟨by decide, by decide, by decide, by decide,
    ⟨"---\nid: 1\ntitle: N\nslug: w\ncategories: c\nprice: $-0.50\nregular_price: $-0.50\non_sale: false\ntags: []\nuse_cases: []\n---\n\ns\n\n\n\n## Details\n\nl\n\n## Attributes\n\n\n",
      by decide,
      ⟨"---\nid: 1\ntitle: N\nslug: w\ncategories: c\n",
       "\nregular_price: $-0.50\non_sale: false\ntags: []\nuse_cases: []\n---\n\ns\n\n\n\n## Details\n\nl\n\n## Attributes\n\n\n",
       by decide⟩⟩⟩

/-- `determine_pricing`, with its monadic structure exposed as `Option.bind`. -/
lemma determine_pricing_def (row : Row) :
    determine_pricing row =
      (row "price").bind (fun priceStr =>
        (parsePyInt priceStr).bind (fun p =>
          if (is_on_sale (rowGet row "on_sale" "0") &&
              (pyStrip (rowGet row "sale_price" "") != "")) = true then
            (row "sale_price").bind (fun saleStr =>
              (parsePyInt saleStr).bind (fun v => some ("$" ++ fmt2 v, p, some v)))
          else some ("$" ++ fmt2 p, p, none))) := rfl

/-- `generate_markdown_content`, with its monadic structure exposed. -/
lemma generate_def (row : Row) :
    generate_markdown_content row =
      (row "slug").bind (fun slug =>
        (determine_pricing row).bind (fun pr =>
          (row "id").bind (fun id =>
            (row "name").bind (fun name =>
              (row "categories").bind (fun categories =>
                (row "short_description").bind (fun sd =>
                  (row "long_description").bind (fun ld =>
                    some (assemble id name slug categories pr.1 pr.2.1 pr.2.2
                      (format_comma_separated (rowGet row "tags" ""))
                      (format_comma_separated (rowGet row "use_cases" ""))
                      (if pyStrip (rowGet row "ai_notes" "") != "" then
                        "\n**AI NOTES:** " ++ pyStrip (rowGet row "ai_notes" "") ++ "\n"
                       else "")
                      sd ld
                      (parse_attributes (rowGet row "attributes" "")))))))))) := rfl

lemma determine_pricing_eq_none_iff (row : Row) :
    determine_pricing row = none ↔
      (row "price" = none ∨ parse_price (rowGet row "price" "") = none ∨
       (is_on_sale (rowGet row "on_sale" "0") = true ∧
        pyStrip (rowGet row "sale_price" "") ≠ "" ∧
        parse_price (rowGet row "sale_price" "") = none)) := by
  rw [determine_pricing_def]
  cases hp : row "price" with
  | none => simp
  | some pstr =>
    have hg : rowGet row "price" "" = pstr := by simp [rowGet, hp]
    rw [hg, Option.some_bind]
    cases hpp : parsePyInt pstr with
    | none => simp [parse_price, hpp]
    | some p =>
      rw [Option.some_bind]
      by_cases hc : (is_on_sale (rowGet row "on_sale" "0") &&
          (pyStrip (rowGet row "sale_price" "") != "")) = true
      · rw [if_pos hc]
        obtain ⟨hos, hbs⟩ := Bool.and_eq_true_iff.mp hc
        have hsp' : pyStrip (rowGet row "sale_price" "") ≠ "" := by simpa using hbs
        obtain ⟨s, hs⟩ : ∃ s, row "sale_price" = some s := by
          cases hq : row "sale_price" with
          | none => exact absurd (by simp [rowGet, hq, pyStrip]) hsp'
          | some s => exact ⟨s, rfl⟩
        have hgs : rowGet row "sale_price" "" = s := by simp [rowGet, hs]
        have hsp2 : pyStrip s ≠ "" := hgs ▸ hsp'
        rw [hs, Option.some_bind, hgs]
        cases hps : parsePyInt s with
        | none => simp [hos, hsp2, hps, parse_price, hpp, hgs]
        | some v => simp [parse_price, hpp, hps, hgs]
      · rw [if_neg hc]
        have hnc := hc
        rw [Bool.and_eq_true_iff, not_and_or] at hnc
        rcases hnc with h1 | h2
        · rw [Bool.not_eq_true] at h1
          simp [h1, parse_price, hpp]
        · have h2' : pyStrip (rowGet row "sale_price" "") = "" := by
            by_contra hx
            exact h2 (by simpa using hx)
          simp [h2', parse_price, hpp]

lemma generate_eq_none_iff0 (row : Row) :
    generate_markdown_content row = none ↔
      (row "slug" = none ∨ determine_pricing row = none ∨ row "id" = none ∨
       row "name" = none ∨ row "categories" = none ∨ row "short_description" = none ∨
       row "long_description" = none) := by
  rw [generate_def]
  cases row "slug" <;> cases determine_pricing row <;> cases row "id" <;>
    cases row "name" <;> cases row "categories" <;> cases row "short_description" <;>
    cases row "long_description" <;> simp

/-- **C6**: the per-record transform fails exactly when a required field (id,
name, slug, categories, price, short_description, long_description) is absent,
or the price does not parse as an integer, or the sale branch (flag true and
trimmed sale_price non-empty) is taken and sale_price does not parse; in every
other case it returns a document — in particular, a malformed sale_price is
harmless when the sale flag is false. -/
theorem generate_fails_iff (row : Row) :
    (generate_markdown_content row = none ↔
      (row "id" = none ∨ row "name" = none ∨ row "slug" = none ∨
       row "categories" = none ∨ row "price" = none ∨
       row "short_description" = none ∨ row "long_description" = none ∨
       parse_price (rowGet row "price" "") = none ∨
       (is_on_sale (rowGet row "on_sale" "0") = true ∧
        pyStrip (rowGet row "sale_price" "") ≠ "" ∧
        parse_price (rowGet row "sale_price" "") = none))) ∧
    generate_markdown_content (mkRow [("id", "1"), ("name", "N"), ("slug", "w"),
      ("categories", "c"), ("price", "100"), ("short_description", "s"),
      ("long_description", "l"), ("sale_price", "abc"), ("on_sale", "0")]) ≠ none := by
  constructor
  · rw [generate_eq_none_iff0, determine_pricing_eq_none_iff]
    tauto
  · decide

lemma upd_self (row : Row) (k : String) (v : Option String) : upd row k v k = v := by
  simp [upd]

lemma upd_other (row : Row) (k : String) (v : Option String) (q : String) (h : q ≠ k) :
    upd row k v q = row q := by
  simp [upd, h]

lemma determine_pricing_ext (r1 r2 : Row)
    (hp : r1 "price" = r2 "price")
    (ho : is_on_sale (rowGet r1 "on_sale" "0") = is_on_sale (rowGet r2 "on_sale" "0"))
    (hsget : rowGet r1 "sale_price" "" = rowGet r2 "sale_price" "")
    (hs : pyStrip (rowGet r1 "sale_price" "") ≠ "" → r1 "sale_price" = r2 "sale_price") :
    determine_pricing r1 = determine_pricing r2 := by
  rw [determine_pricing_def, determine_pricing_def, hp]
  simp only [ho, hsget]
  by_cases hss : pyStrip (rowGet r1 "sale_price" "") ≠ ""
  · simp only [hs hss]
  · have h2 : pyStrip (rowGet r2 "sale_price" "") = "" := by
      rw [← hsget]
      exact not_not.mp hss
    have hC : (is_on_sale (rowGet r2 "on_sale" "0") &&
        (pyStrip (rowGet r2 "sale_price" "") != "")) = false := by
      simp [h2]
    apply congrArg
    funext priceStr
    apply congrArg
    funext p
    rw [hC]
    simp

lemma generate_ext (r1 r2 : Row)
    (hslug : r1 "slug" = r2 "slug") (hid : r1 "id" = r2 "id")
    (hname : r1 "name" = r2 "name") (hcat : r1 "categories" = r2 "categories")
    (hsd : r1 "short_description" = r2 "short_description")
    (hld : r1 "long_description" = r2 "long_description")
    (hdp : determine_pricing r1 = determine_pricing r2)
    (htags : rowGet r1 "tags" "" = rowGet r2 "tags" "")
    (huc : rowGet r1 "use_cases" "" = rowGet r2 "use_cases" "")
    (hattr : rowGet r1 "attributes" "" = rowGet r2 "attributes" "")
    (hai : rowGet r1 "ai_notes" "" = rowGet r2 "ai_notes" "") :
    generate_markdown_content r1 = generate_markdown_content r2 := by
  simp only [generate_def, hslug, hid, hname, hcat, hsd, hld, hdp, htags, huc, hattr, hai]

/-- **C8**: for each optional field (sale_price, on_sale, tags, use_cases,
attributes, ai_notes), the transform produces the identical output document
whether the field is absent from the record or present with the empty string
as its value. -/
theorem optional_absent_eq_empty (row : Row) (f : String)
    (hf : f ∈ ["sale_price", "on_sale", "tags", "use_cases", "attributes", "ai_notes"]) :
    generate_markdown_content (upd row f none) =
      generate_markdown_content (upd row f (some "")) := by
  have key : ∀ (v1 v2 : Option String) (k : String), k ≠ f →
      upd row f v1 k = upd row f v2 k := fun v1 v2 k hk => by
    rw [upd_other _ _ _ _ hk, upd_other _ _ _ _ hk]
  have keyget : ∀ (v1 v2 : Option String) (k d : String), k ≠ f →
      rowGet (upd row f v1) k d = rowGet (upd row f v2) k d := fun v1 v2 k d hk => by
    unfold rowGet
    rw [key v1 v2 k hk]
  fin_cases hf
  · exact generate_ext _ _ (key _ _ _ (by decide)) (key _ _ _ (by decide))
      (key _ _ _ (by decide)) (key _ _ _ (by decide)) (key _ _ _ (by decide))
      (key _ _ _ (by decide))
      (determine_pricing_ext _ _ (key _ _ _ (by decide))
        (congrArg is_on_sale (keyget _ _ _ _ (by decide))) rfl
        (fun h => absurd rfl h))
      (keyget _ _ _ _ (by decide)) (keyget _ _ _ _ (by decide))
      (keyget _ _ _ _ (by decide)) (keyget _ _ _ _ (by decide))
  · exact generate_ext _ _ (key _ _ _ (by decide)) (key _ _ _ (by decide))
      (key _ _ _ (by decide)) (key _ _ _ (by decide)) (key _ _ _ (by decide))
      (key _ _ _ (by decide))
      (determine_pricing_ext _ _ (key _ _ _ (by decide)) rfl
        (keyget _ _ _ _ (by decide)) (fun _ => key _ _ _ (by decide)))
      (keyget _ _ _ _ (by decide)) (keyget _ _ _ _ (by decide))
      (keyget _ _ _ _ (by decide)) (keyget _ _ _ _ (by decide))
  · exact generate_ext _ _ (key _ _ _ (by decide)) (key _ _ _ (by decide))
      (key _ _ _ (by decide)) (key _ _ _ (by decide)) (key _ _ _ (by decide))
      (key _ _ _ (by decide))
      (determine_pricing_ext _ _ (key _ _ _ (by decide))
        (congrArg is_on_sale (keyget _ _ _ _ (by decide)))
        (keyget _ _ _ _ (by decide)) (fun _ => key _ _ _ (by decide)))
      rfl (keyget _ _ _ _ (by decide)) (keyget _ _ _ _ (by decide))
      (keyget _ _ _ _ (by decide))
  · exact generate_ext _ _ (key _ _ _ (by decide)) (key _ _ _ (by decide))
      (key _ _ _ (by decide)) (key _ _ _ (by decide)) (key _ _ _ (by decide))
      (key _ _ _ (by decide))
      (determine_pricing_ext _ _ (key _ _ _ (by decide))
        (congrArg is_on_sale (keyget _ _ _ _ (by decide)))
        (keyget _ _ _ _ (by decide)) (fun _ => key _ _ _ (by decide)))
      (keyget _ _ _ _ (by decide)) rfl (keyget _ _ _ _ (by decide))
      (keyget _ _ _ _ (by decide))
  · exact generate_ext _ _ (key _ _ _ (by decide)) (key _ _ _ (by decide))
      (key _ _ _ (by decide)) (key _ _ _ (by decide)) (key _ _ _ (by decide))
      (key _ _ _ (by decide))
      (determine_pricing_ext _ _ (key _ _ _ (by decide))
        (congrArg is_on_sale (keyget _ _ _ _ (by decide)))
        (keyget _ _ _ _ (by decide)) (fun _ => key _ _ _ (by decide)))
      (keyget _ _ _ _ (by decide)) (keyget _ _ _ _ (by decide)) rfl
      (keyget _ _ _ _ (by decide))
  · exact generate_ext _ _ (key _ _ _ (by decide)) (key _ _ _ (by decide))
      (key _ _ _ (by decide)) (key _ _ _ (by decide)) (key _ _ _ (by decide))
      (key _ _ _ (by decide))
      (determine_pricing_ext _ _ (key _ _ _ (by decide))
        (congrArg is_on_sale (keyget _ _ _ _ (by decide)))
        (keyget _ _ _ _ (by decide)) (fun _ => key _ _ _ (by decide)))
      (keyget _ _ _ _ (by decide)) (keyget _ _ _ _ (by decide))
      (keyget _ _ _ _ (by decide)) rfl

/-- Witness for **C8** at a concrete row and the field `tags`. -/
theorem optional_absent_eq_empty_witness :
    generate_markdown_content (upd R_neg "tags" none) =
      generate_markdown_content (upd R_neg "tags" (some "")) :=
  optional_absent_eq_empty R_neg "tags" (by decide)

lemma appearsIn_self (n : String) : appearsIn n n :=
  ⟨"", "", by simp⟩

lemma appearsIn_left (n a b : String) : appearsIn n a → appearsIn n (a ++ b) :=
  fun ⟨p, s, hp⟩ => ⟨p, s ++ b, by rw [hp]; simp [String.append_assoc]⟩

lemma appearsIn_right (n a b : String) : appearsIn n b → appearsIn n (a ++ b) :=
  fun ⟨p, s, hp⟩ => ⟨a ++ p, s, by rw [hp]; simp [String.append_assoc]⟩

/-- **C10**: every raw field used in document assembly is interpolated
verbatim: whenever the transform returns a document, each required field's raw
value, and the formatted tags, use_cases and attribute list, occur as literal
substrings of the document — no escaping or sanitization. -/
theorem generate_verbatim (row : Row) (doc : String)
    (h : generate_markdown_content row = some doc) :
    (∀ v, row "id" = some v → appearsIn v doc) ∧
    (∀ v, row "name" = some v → appearsIn v doc) ∧
    (∀ v, row "slug" = some v → appearsIn v doc) ∧
    (∀ v, row "categories" = some v → appearsIn v doc) ∧
    (∀ v, row "short_description" = some v → appearsIn v doc) ∧
    (∀ v, row "long_description" = some v → appearsIn v doc) ∧
    appearsIn (format_comma_separated (rowGet row "tags" "")) doc ∧
    appearsIn (format_comma_separated (rowGet row "use_cases" "")) doc ∧
    appearsIn (parse_attributes (rowGet row "attributes" "")) doc := by
  rw [generate_def] at h
  simp only [Option.bind_eq_some, Option.some_inj] at h
  obtain ⟨slug, hslug, pr, hpr, id, hid, name, hname, cat, hcat, sd, hsd, ld, hld, hdoc⟩ := h
  subst hdoc
  simp only [assemble]
  refine ⟨fun v hv => ?_, fun v hv => ?_, fun v hv => ?_, fun v hv => ?_,
    fun v hv => ?_, fun v hv => ?_, ?_, ?_, ?_⟩
  · obtain rfl : v = id := Option.some_inj.mp (hid ▸ hv).symm
    iterate 25 apply appearsIn_left
    exact appearsIn_right _ _ _ (appearsIn_self _)
  · obtain rfl : v = name := Option.some_inj.mp (hname ▸ hv).symm
    iterate 23 apply appearsIn_left
    exact appearsIn_right _ _ _ (appearsIn_self _)
  · obtain rfl : v = slug := Option.some_inj.mp (hslug ▸ hv).symm
    iterate 21 apply appearsIn_left
    exact appearsIn_right _ _ _ (appearsIn_self _)
  · obtain rfl : v = cat := Option.some_inj.mp (hcat ▸ hv).symm
    iterate 19 apply appearsIn_left
    exact appearsIn_right _ _ _ (appearsIn_self _)
  · obtain rfl : v = sd := Option.some_inj.mp (hsd ▸ hv).symm
    iterate 7 apply appearsIn_left
    exact appearsIn_right _ _ _ (appearsIn_self _)
  · obtain rfl : v = ld := Option.some_inj.mp (hld ▸ hv).symm
    iterate 3 apply appearsIn_left
    exact appearsIn_right _ _ _ (appearsIn_self _)
  · iterate 11 apply appearsIn_left
    exact appearsIn_right _ _ _ (appearsIn_self _)
  · iterate 9 apply appearsIn_left
    exact appearsIn_right _ _ _ (appearsIn_self _)
  · iterate 1 apply appearsIn_left
    exact appearsIn_right _ _ _ (appearsIn_self _)

/-- Witness for **C10** at the concrete row `R_neg`. -/
theorem generate_verbatim_witness :
    appearsIn "N" ((generate_markdown_content R_neg).getD "") ∧
    appearsIn "l" ((generate_markdown_content R_neg).getD "") := by
  have h : generate_markdown_content R_neg =
      some ((generate_markdown_content R_neg).getD "") := by decide
  have H := generate_verbatim R_neg _ h
  exact ⟨H.2.1 "N" (by decide), H.2.2.2.2.2.1 "l" (by decide)⟩
